import Mathlib

/-!
Shallow embedding of the cycling-nutrition core: the Schedule Generator
(generateSchedule), the Route Analyzer's climb-detection scan
(parseGPXFile), and the Weather Acquisition Service (GET handler and
checkRateLimit), translated from the TypeScript source. Machine numbers
are modelled as ℕ/ℤ/ℚ; JavaScript's Math.round is floor (x + 1/2).
-/

namespace CyclingNutrition

/-- JavaScript Math.round on a finite value: floor (x + 1/2), which rounds
half-integers towards positive infinity. -/
def jsRound (q : ℚ) : ℤ := ⌊q + 1/2⌋

/-! ## Data model of the schedule generator (interfaces in the page component) -/

/-- Ride-level intensity selector, state values of the rideIntensity hook. -/
inductive RideIntensity
  | casual
  | moderate
  | hard
deriving DecidableEq, Repr

/-- Initial value of the rideIntensity state hook in the page component. -/
def rideIntensityDefault : RideIntensity := .casual

/-- Sweat-rate field of the NutritionProfile interface. -/
inductive SweatRate
  | light
  | moderate
  | heavy
deriving DecidableEq, Repr

/-- NutritionProfile restricted to the fields generateSchedule reads
(only sweatRate is consulted, via optional chaining). -/
structure NutritionProfile where
  sweatRate : SweatRate
deriving DecidableEq, Repr

/-- FuelAlert.type values. -/
inductive FuelType
  | carbs
  | electrolytes
deriving DecidableEq, Repr

/-- FuelAlert.priority values. -/
inductive Priority
  | normal
  | critical
deriving DecidableEq, Repr

/-- FuelAlert record: time in minutes, kind, textual amount, priority. -/
structure FuelAlert where
  time : ℤ
  type : FuelType
  amount : String
  priority : Priority
deriving DecidableEq, Repr

/-- One entry of RouteData.climbs. -/
structure Climb where
  startDistance : ℚ
  endDistance : ℚ
  elevationGain : ℚ
  grade : ℚ
deriving DecidableEq, Repr

/-- RouteData produced by the GPX parser. -/
structure RouteData where
  name : String
  distance : ℚ
  elevationGain : ℚ
  estimatedTime : ℤ
  climbs : List Climb
deriving DecidableEq, Repr

/-- Unit system selector of the page component. -/
inductive UnitSystem
  | US
  | UK
deriving DecidableEq, Repr

/-! ## Schedule Generator (generateSchedule in the page component) -/

/-- STEP 2 of generateSchedule: carb rate (g/hour), start time (null when no
fueling) and interval between intakes, from the intensity/duration if-chain. -/
def carbParams (rideIntensity : RideIntensity) (durationMinutes : ℕ) :
    ℕ × Option ℕ × ℕ :=
  match rideIntensity with
  | .casual =>
      if durationMinutes < 90 then (0, none, 0)
      else if durationMinutes < 150 then (20, some 75, 60)
      else (30, some 75, 50)
  | .moderate =>
      if durationMinutes < 75 then (0, none, 0)
      else if durationMinutes < 90 then (25, some 60, 60)
      else if durationMinutes < 150 then (45, some 60, 35)
      else (60, some 60, 25)
  | .hard =>
      if durationMinutes < 60 then (0, none, 0)
      else if durationMinutes < 90 then (50, some 45, 30)
      else (70, some 45, 20)

/-- Fuel-indexed unfolding of the while loop that pushes currentTime and
advances by interval while below durationMinutes. The fuel only bounds the
number of iterations so the recursion is structural; intakeTimes below feeds
it enough fuel for the loop to run to completion. -/
def intakeTimesAux (interval durationMinutes : ℕ) :
    ℕ → ℕ → List ℕ
  | _, 0 => []
  | currentTime, fuel + 1 =>
      if currentTime < durationMinutes then
        currentTime ::
          intakeTimesAux interval durationMinutes (currentTime + interval) fuel
      else []

/-- Times produced by the while loop: start at currentTime, advance by
interval while below durationMinutes. The source only runs it with a positive
interval; that guard keeps the loop from diverging. -/
def intakeTimes (currentTime interval durationMinutes : ℕ) : List ℕ :=
  if 0 < interval then
    intakeTimesAux interval durationMinutes currentTime
      (durationMinutes - currentTime)
  else []

theorem intakeTimesAux_fuel_irrelevant (interval durationMinutes : ℕ)
    (hiv : 0 < interval) :
    ∀ fuel fuel' currentTime,
      durationMinutes - currentTime ≤ fuel →
      durationMinutes - currentTime ≤ fuel' →
      intakeTimesAux interval durationMinutes currentTime fuel =
        intakeTimesAux interval durationMinutes currentTime fuel'
  | 0, 0, _, _, _ => rfl
  | 0, fuel' + 1, currentTime, h, _ => by
      simp only [intakeTimesAux]
      rw [if_neg (by omega)]
  | fuel + 1, 0, currentTime, _, h' => by
      simp only [intakeTimesAux]
      rw [if_neg (by omega)]
  | fuel + 1, fuel' + 1, currentTime, h, h' => by
      simp only [intakeTimesAux]
      split
      next hc =>
        rw [intakeTimesAux_fuel_irrelevant interval durationMinutes hiv fuel
          fuel' (currentTime + interval) (by omega) (by omega)]
      next => rfl

/-- The loop-step unfolding the source's while loop satisfies. -/
theorem intakeTimes_step (currentTime interval durationMinutes : ℕ)
    (hiv : 0 < interval) :
    intakeTimes currentTime interval durationMinutes =
      if currentTime < durationMinutes then
        currentTime ::
          intakeTimes (currentTime + interval) interval durationMinutes
      else [] := by
  unfold intakeTimes
  rw [if_pos hiv, if_pos hiv]
  by_cases hc : currentTime < durationMinutes
  · have h1 : durationMinutes - currentTime = (durationMinutes - currentTime - 1) + 1 := by
      omega
    rw [h1]
    simp only [intakeTimesAux]
    rw [if_pos hc, if_pos hc,
      intakeTimesAux_fuel_irrelevant interval durationMinutes hiv
        (durationMinutes - currentTime - 1)
        (durationMinutes - (currentTime + interval)) (currentTime + interval)
        (by omega) (by omega)]
  · have h1 : durationMinutes - currentTime = 0 := by omega
    rw [h1, if_neg hc]
    rfl

/-- STEP 3 of generateSchedule: the carb intake schedule. -/
def carbEvents (rideIntensity : RideIntensity) (durationMinutes : ℕ) :
    List FuelAlert :=
  let p := carbParams rideIntensity durationMinutes
  match p.2.1 with
  | none => []
  | some startTime =>
      if p.1 > 0 then
        let carbPerIntake : ℤ := jsRound ((p.1 : ℚ) * ((p.2.2 : ℚ) / 60))
        (intakeTimes startTime p.2.2 durationMinutes).map fun (t : ℕ) =>
          { time := (t : ℤ)
            type := .carbs
            amount := toString carbPerIntake ++ "g (gel or sports drink)"
            priority := .normal }
      else []

/-- Elevation display string used in the pre-climb alert amount. -/
def elevationDisplay (unitSystem : UnitSystem) (gain : ℚ) : String :=
  match unitSystem with
  | .US => "+" ++ toString (jsRound (gain * (328084 / 100000))) ++ "ft"
  | .UK => "+" ++ toString (jsRound gain) ++ "m"

/-- Body of the forEach over routeData.climbs: possibly append one pre-climb
critical carb alert to the schedule accumulated so far. -/
def climbStep (avgSpeed : ℚ) (durationMinutes : ℕ) (unitSystem : UnitSystem)
    (schedule : List FuelAlert) (climb : Climb) : List FuelAlert :=
  if climb.elevationGain > 100 then
    let climbStartTime : ℤ := jsRound (climb.startDistance / avgSpeed * 60)
    let preFuelTime : ℤ := max 5 (climbStartTime - 15)
    let nearbyAlert := schedule.find? fun alert => |alert.time - preFuelTime| < 10
    if nearbyAlert.isNone ∧ preFuelTime < (durationMinutes : ℤ) then
      schedule ++
        [{ time := preFuelTime
           type := .carbs
           amount := "20-25g before climb (" ++
             elevationDisplay unitSystem climb.elevationGain ++ ")"
           priority := .critical }]
    else schedule
  else schedule

/-- Pre-climb fueling pass of generateSchedule: runs only when a route with at
least one climb is loaded and the intensity is not casual. -/
def climbEvents (routeData : Option RouteData) (rideIntensity : RideIntensity)
    (durationMinutes : ℕ) (unitSystem : UnitSystem)
    (schedule : List FuelAlert) : List FuelAlert :=
  match routeData with
  | none => schedule
  | some rd =>
      if rd.climbs.length > 0 ∧ rideIntensity ≠ .casual then
        let avgSpeed := rd.distance / ((durationMinutes : ℚ) / 60)
        rd.climbs.foldl (climbStep avgSpeed durationMinutes unitSystem) schedule
      else schedule

/-- STEP 4 of generateSchedule: electrolyte rate (mg sodium/hour) and interval,
or none. Optional chaining on an absent profile compares undefined, so a
missing profile never satisfies a sweat-rate test. -/
def electrolyteParams (durationMinutes : ℕ) (currentTemp : ℚ)
    (nutritionProfile : Option NutritionProfile) : Option (ℕ × ℕ) :=
  if durationMinutes ≥ 90 then
    if currentTemp > 80 ∨ nutritionProfile.map (·.sweatRate) = some .heavy then
      some (500, 60)
    else if currentTemp > 75 ∨ nutritionProfile.map (·.sweatRate) = some .moderate then
      some (300, 75)
    else none
  else if durationMinutes ≥ 60 ∧ durationMinutes < 90 then
    if currentTemp > 85 ∨ nutritionProfile.map (·.sweatRate) = some .heavy then
      some (400, 60)
    else none
  else none

/-- STEP 5 of generateSchedule: the electrolyte schedule, starting at minute 60. -/
def electrolyteEvents (durationMinutes : ℕ) (currentTemp : ℚ)
    (nutritionProfile : Option NutritionProfile) : List FuelAlert :=
  match electrolyteParams durationMinutes currentTemp nutritionProfile with
  | none => []
  | some p =>
      (intakeTimes 60 p.2 durationMinutes).map fun (t : ℕ) =>
        { time := (t : ℤ)
          type := .electrolytes
          amount := toString p.1 ++ "mg sodium (tab or sports drink)"
          priority := .normal }

/-- Comparison used by the final schedule.sort((a, b) => a.time - b.time). -/
def leTime (a b : FuelAlert) : Prop := a.time ≤ b.time

instance : DecidableRel leTime := fun a b => inferInstanceAs (Decidable (a.time ≤ b.time))

instance : IsTotal FuelAlert leTime := ⟨fun a b => Int.le_total a.time b.time⟩

instance : IsTrans FuelAlert leTime := ⟨fun _ _ _ h h' => le_trans h h'⟩

/-- generateSchedule: empty below 60 minutes, otherwise carb events, then the
pre-climb pass appending to them, then electrolyte events, stably sorted by
time (JavaScript Array.prototype.sort is stable; insertionSort matches it). -/
def generateSchedule (rideIntensity : RideIntensity)
    (routeData : Option RouteData) (currentTemp : ℚ)
    (nutritionProfile : Option NutritionProfile) (unitSystem : UnitSystem)
    (durationMinutes : ℕ) : List FuelAlert :=
  if durationMinutes < 60 then []
  else
    let schedule := carbEvents rideIntensity durationMinutes
    let schedule := climbEvents routeData rideIntensity durationMinutes unitSystem schedule
    let schedule := schedule ++ electrolyteEvents durationMinutes currentTemp nutritionProfile
    schedule.insertionSort leTime

/-! ## Route Analyzer: climb-detection scan of parseGPXFile

The per-point loop of parseGPXFile, with the haversine distance left as a
parameter dist (the source computes it with floating-point trigonometry;
every claim below is about the scan, which consumes only the returned
segment distances). -/

/-- One GPX track point as read from a trkpt element. -/
structure TrackPoint where
  lat : ℚ
  lon : ℚ
  ele : ℚ
deriving DecidableEq, Repr

/-- Mutable currentClimb record of the scan. -/
structure OpenClimb where
  startDistance : ℚ
  startElevation : ℚ
  elevationGain : ℚ
deriving DecidableEq, Repr

/-- Loop state of parseGPXFile: accumulated totals, emitted climbs, the open
climb, and lastPoint together with its recorded dist field. -/
structure ScanState where
  totalDistance : ℚ
  totalElevationGain : ℚ
  climbs : List Climb
  currentClimb : Option OpenClimb
  lastPoint : Option (TrackPoint × ℚ)
deriving DecidableEq, Repr

/-- Initial scan state before the first track point. -/
def initScanState : ScanState :=
  { totalDistance := 0
    totalElevationGain := 0
    climbs := []
    currentClimb := none
    lastPoint := none }

/-- The Climb pushed when a climb closes with the given new running total. -/
def closeClimb (c : OpenClimb) (newTotal : ℚ) : Climb :=
  let climbDistance := newTotal - c.startDistance
  { startDistance := c.startDistance
    endDistance := newTotal
    elevationGain := c.elevationGain
    grade := if climbDistance > 0
      then c.elevationGain / (climbDistance * 1000) * 100 else 0 }

/-- Body of the for-loop over track points. isLast tells whether the current
index is trackPoints.length - 1. The minElevation/maxElevation locals of the
source are omitted: they feed nothing in RouteData. -/
def processPoint (dist : TrackPoint → TrackPoint → ℚ) (st : ScanState)
    (p : TrackPoint) (isLast : Bool) : ScanState :=
  match st.lastPoint with
  | none => { st with lastPoint := some (p, st.totalDistance) }
  | some lp =>
      let segmentDistance := dist lp.1 p
      let newTotal := st.totalDistance + segmentDistance
      let elevationChange := p.ele - lp.1.ele
      let newGain := if elevationChange > 0
        then st.totalElevationGain + elevationChange else st.totalElevationGain
      if elevationChange > 1/2 ∧ segmentDistance > 0 then
        let cur := match st.currentClimb with
          | none =>
              { startDistance := lp.2
                startElevation := lp.1.ele
                elevationGain := elevationChange : OpenClimb }
          | some c => { c with elevationGain := c.elevationGain + elevationChange }
        { totalDistance := newTotal
          totalElevationGain := newGain
          climbs := st.climbs
          currentClimb := some cur
          lastPoint := some (p, newTotal) }
      else
        match st.currentClimb with
        | some c =>
            if elevationChange < -(1/2) ∨ isLast then
              { totalDistance := newTotal
                totalElevationGain := newGain
                climbs := st.climbs ++
                  (if c.elevationGain > 30 then [closeClimb c newTotal] else [])
                currentClimb := none
                lastPoint := some (p, newTotal) }
            else
              { totalDistance := newTotal
                totalElevationGain := newGain
                climbs := st.climbs
                currentClimb := some c
                lastPoint := some (p, newTotal) }
        | none =>
            { totalDistance := newTotal
              totalElevationGain := newGain
              climbs := st.climbs
              currentClimb := none
              lastPoint := some (p, newTotal) }

/-- The whole scan: the last list element is processed with isLast = true. -/
def runScan (dist : TrackPoint → TrackPoint → ℚ) (st : ScanState) :
    List TrackPoint → ScanState
  | [] => st
  | p :: rest => runScan dist (processPoint dist st p rest.isEmpty) rest

/-! ## Weather Acquisition Service (app/api/weather/route.ts) -/

/-- WeatherData record returned to the caller (metadata fields modelled on the
response constructors below). -/
structure WeatherData where
  location : String
  temperature : ℤ
  feelsLike : ℤ
  humidity : ℤ
  windSpeed : ℤ
  windGust : ℤ
  windDirection : ℤ
  uvIndex : ℤ
  description : String
deriving DecidableEq, Repr

/-- The DEFAULT_WEATHER constant. -/
def DEFAULT_WEATHER : WeatherData :=
  { location := "Default Location"
    temperature := 75
    feelsLike := 75
    humidity := 50
    windSpeed := 5
    windGust := 0
    windDirection := 0
    uvIndex := 3
    description := "partly cloudy" }

/-- RATE_LIMIT constant: requests per hour. -/
def RATE_LIMIT : ℕ := 100

/-- RATE_LIMIT_WINDOW constant: one hour in milliseconds. -/
def RATE_LIMIT_WINDOW : ℕ := 60 * 60 * 1000

/-- CACHE_DURATION constant: thirty minutes in milliseconds. -/
def CACHE_DURATION : ℕ := 30 * 60 * 1000

/-- One rateLimitStore entry. -/
structure RateRecord where
  count : ℕ
  resetTime : ℕ
deriving DecidableEq, Repr

/-- checkRateLimit for one key: given the clock and the stored record for that
key, return whether the request is admitted and the updated record. -/
def checkRateLimit (now : ℕ) (record : Option RateRecord) :
    Bool × RateRecord :=
  match record with
  | none => (true, { count := 1, resetTime := now + RATE_LIMIT_WINDOW })
  | some r =>
      if now > r.resetTime then
        (true, { count := 1, resetTime := now + RATE_LIMIT_WINDOW })
      else if r.count ≥ RATE_LIMIT then (false, r)
      else (true, { count := r.count + 1, resetTime := r.resetTime })

/-- Outcomes of a sequence of requests from one key at the given times,
threading the stored record exactly as the Map does. -/
def rateLimitTrace (record : Option RateRecord) : List ℕ → List Bool
  | [] => []
  | t :: ts =>
      let r := checkRateLimit t record
      r.1 :: rateLimitTrace (some r.2) ts

/-- validateZipCode: the regex for a 5-digit ZIP with optional -4 extension. -/
def validateZipCode (zip : String) : Bool :=
  let cs := zip.toList
  (cs.length == 5 && cs.all Char.isDigit) ||
    (cs.length == 10 && (cs.take 5).all Char.isDigit &&
      cs.get? 5 == some '-' && (cs.drop 6).all Char.isDigit)

/-- Outcome of an awaited fetch: a thrown network error, or an HTTP response
with its ok flag and status, whose body parse (.json() and field extraction)
either throws or yields a value. -/
inductive FetchOutcome (α : Type)
  | networkError : FetchOutcome α
  | httpResponse (ok : Bool) (status : ℕ) (body : Except Unit α) : FetchOutcome α

/-- Fields destructured from the geocoding response. Absent name/country are
modelled as the empty string, matching JavaScript truthiness tests on them. -/
structure GeoData where
  lat : ℚ
  lon : ℚ
  name : String
  country : String
deriving DecidableEq, Repr

/-- Fields read from weatherApiData.current. wind_gust and wind_deg are
optional; a missing or zero wind_gust yields 0 via the truthiness test. -/
structure CurrentConditions where
  temp : ℚ
  feels_like : ℚ
  humidity : ℤ
  wind_speed : ℚ
  wind_gust : Option ℚ
  wind_deg : Option ℤ
  uvi : ℚ
  description : String
deriving DecidableEq, Repr

/-- Location display string built from geocoding and reverse-geocoding data
(stateName is the empty string when reverse geocoding yielded none). -/
def locationDisplay (name country stateName : String) : String :=
  let base := if name = "" then "Unknown Location" else name
  if stateName ≠ "" ∧ country = "US" then name ++ ", " ++ stateName
  else if country ≠ "" ∧ country ≠ "US" then name ++ ", " ++ country
  else if country = "US" then name ++ ", US"
  else base

/-- Weather payload assembled from a successful upstream fetch. -/
def buildWeatherData (geo : GeoData) (stateName : String)
    (current : CurrentConditions) : WeatherData :=
  { location := locationDisplay geo.name geo.country stateName
    temperature := jsRound current.temp
    feelsLike := jsRound current.feels_like
    humidity := current.humidity
    windSpeed := jsRound current.wind_speed
    windGust := match current.wind_gust with
      | some g => if g ≠ 0 then jsRound g else 0
      | none => 0
    windDirection := current.wind_deg.getD 0
    uvIndex := jsRound current.uvi
    description := current.description }

/-- Cache entry stored in weatherCache for one key. -/
structure CacheEntry where
  data : WeatherData
  timestamp : ℕ
deriving DecidableEq, Repr

/-- Responses the GET handler can produce, one constructor per return site. -/
inductive WeatherResponse
  | rateLimited (retryAfterMinutes : ℕ) (fallbackWeather : WeatherData)
  | errorZipRequired
  | errorInvalidZip
  | errorNoApiKey
  | errorLocationNotFound
  | freshResult (data : WeatherData)
  | cachedResult (data : WeatherData) (cacheAge : ℤ)
  | staleResult (data : WeatherData) (cacheAge : ℤ) (warning : String)
  | fallbackDefault (data : WeatherData) (warning : String)
deriving DecidableEq, Repr

/-- Cache age in minutes as computed by Math.round((now - ts) / 1000 / 60). -/
def cacheAgeMinutes (now ts : ℕ) : ℤ :=
  jsRound (((now - ts : ℕ) : ℚ) / 1000 / 60)

/-- Catch block of the GET handler: stale cache if present, else the built-in
default, each with its warning. -/
def degradedResponse (now : ℕ) (cache : Option CacheEntry) : WeatherResponse :=
  match cache with
  | some e =>
      .staleResult e.data (cacheAgeMinutes now e.timestamp)
        "Using cached weather data - service temporarily unavailable"
  | none =>
      .fallbackDefault DEFAULT_WEATHER
        "Weather service unavailable - using default conditions"

/-- Fresh-fetch path of the GET handler, taken on a cache miss or an expired
entry: missing API key check, geocode fetch (a 404 is surfaced as a
Location-not-found error, any other failure falls to the degraded chain),
then the conditions fetch, whose success overwrites the cache. -/
def weatherGETFetch (apiKey : Option String) (cache : Option CacheEntry)
    (now : ℕ) (geoFetch : FetchOutcome GeoData) (stateName : String)
    (weatherFetch : FetchOutcome CurrentConditions) :
    WeatherResponse × Option CacheEntry :=
  match apiKey with
  | none => (.errorNoApiKey, cache)
  | some _ =>
      match geoFetch with
      | .networkError => (degradedResponse now cache, cache)
      | .httpResponse gok gstatus gbody =>
          if ¬gok then
            if gstatus = 404 then (.errorLocationNotFound, cache)
            else (degradedResponse now cache, cache)
          else
            match gbody with
            | .error _ => (degradedResponse now cache, cache)
            | .ok geo =>
                match weatherFetch with
                | .networkError => (degradedResponse now cache, cache)
                | .httpResponse wok _ wbody =>
                    if ¬wok then (degradedResponse now cache, cache)
                    else
                      match wbody with
                      | .error _ => (degradedResponse now cache, cache)
                      | .ok current =>
                          let d := buildWeatherData geo stateName current
                          (.freshResult d, some { data := d, timestamp := now })

/-- GET handler for one request, for the single cache key weather_zip of the
requested code. rateLimitOk is the result of checkRateLimit on the caller's
key; geoFetch and weatherFetch are the two upstream calls; stateName is the
reverse-geocoding result (empty when it failed or had no state). Returns the
response and the cache entry for the key afterwards. -/
def weatherGET (rateLimitOk : Bool) (zip : Option String)
    (apiKey : Option String) (cache : Option CacheEntry) (now : ℕ)
    (geoFetch : FetchOutcome GeoData) (stateName : String)
    (weatherFetch : FetchOutcome CurrentConditions) :
    WeatherResponse × Option CacheEntry :=
  if ¬rateLimitOk then
    (.rateLimited (RATE_LIMIT_WINDOW / 1000 / 60) DEFAULT_WEATHER, cache)
  else
    match zip with
    | none => (.errorZipRequired, cache)
    | some z =>
        if ¬validateZipCode z then (.errorInvalidZip, cache)
        else
          match cache with
          | some e =>
              if now - e.timestamp < CACHE_DURATION then
                (.cachedResult e.data (cacheAgeMinutes now e.timestamp), cache)
              else weatherGETFetch apiKey cache now geoFetch stateName weatherFetch
          | none => weatherGETFetch apiKey cache now geoFetch stateName weatherFetch

/-! ## Helper lemmas: schedule generator -/

theorem intakeTimesAux_bounds (interval durationMinutes : ℕ) :
    ∀ fuel currentTime t,
      t ∈ intakeTimesAux interval durationMinutes currentTime fuel →
      currentTime ≤ t ∧ t < durationMinutes
  | 0, _, _, h => by simp [intakeTimesAux] at h
  | fuel + 1, currentTime, t, h => by
      simp only [intakeTimesAux] at h
      split at h
      next hc =>
        rcases List.mem_cons.mp h with rfl | h'
        · exact ⟨le_refl _, hc⟩
        · have := intakeTimesAux_bounds interval durationMinutes fuel
            (currentTime + interval) t h'
          omega
      next => simp at h

theorem intakeTimes_bounds (interval currentTime durationMinutes t : ℕ)
    (ht : t ∈ intakeTimes currentTime interval durationMinutes) :
    currentTime ≤ t ∧ t < durationMinutes := by
  unfold intakeTimes at ht
  split at ht
  · exact intakeTimesAux_bounds _ _ _ _ _ ht
  · simp at ht

theorem mem_intakeTimes (interval currentTime durationMinutes t : ℕ)
    (hiv : 0 < interval) :
    t ∈ intakeTimes currentTime interval durationMinutes ↔
      ∃ k, t = currentTime + k * interval ∧ t < durationMinutes := by
  rw [intakeTimes_step currentTime interval durationMinutes hiv]
  split
  next h =>
    rw [List.mem_cons,
      mem_intakeTimes interval (currentTime + interval) durationMinutes t hiv]
    constructor
    · rintro (rfl | ⟨k, rfl, hk⟩)
      · exact ⟨0, by omega, h⟩
      · exact ⟨k + 1, by ring, hk⟩
    · rintro ⟨k, rfl, hk⟩
      cases k with
      | zero => left; omega
      | succ k => right; exact ⟨k, by ring, hk⟩
  next h =>
    simp only [List.not_mem_nil, false_iff, not_exists]
    rintro k ⟨rfl, hk⟩
    exact absurd (lt_of_le_of_lt (Nat.le_add_right _ _) hk) (by omega)
termination_by durationMinutes - currentTime
decreasing_by omega

theorem carbEvents_mem {rideIntensity : RideIntensity} {durationMinutes : ℕ}
    {e : FuelAlert} (he : e ∈ carbEvents rideIntensity durationMinutes) :
    e.type = .carbs ∧ e.priority = .normal ∧ 0 ≤ e.time ∧
      e.time < (durationMinutes : ℤ) := by
  simp only [carbEvents] at he
  split at he
  · simp at he
  · split at he
    · rcases List.mem_map.mp he with ⟨t, ht, rfl⟩
      have hb := intakeTimes_bounds _ _ _ _ ht
      refine ⟨rfl, rfl, by positivity, ?_⟩
      show (t : ℤ) < (durationMinutes : ℤ)
      exact_mod_cast hb.2
    · simp at he

theorem electrolyteEvents_mem {durationMinutes : ℕ} {currentTemp : ℚ}
    {nutritionProfile : Option NutritionProfile} {e : FuelAlert}
    (he : e ∈ electrolyteEvents durationMinutes currentTemp nutritionProfile) :
    e.type = .electrolytes ∧ e.priority = .normal ∧ 0 ≤ e.time ∧
      e.time < (durationMinutes : ℤ) := by
  simp only [electrolyteEvents] at he
  split at he
  · simp at he
  · rcases List.mem_map.mp he with ⟨t, ht, rfl⟩
    have hb := intakeTimes_bounds _ _ _ _ ht
    refine ⟨rfl, rfl, by positivity, ?_⟩
    show (t : ℤ) < (durationMinutes : ℤ)
    exact_mod_cast hb.2

theorem climbStep_mem {avgSpeed : ℚ} {durationMinutes : ℕ}
    {unitSystem : UnitSystem} {schedule : List FuelAlert} {climb : Climb}
    {e : FuelAlert}
    (he : e ∈ climbStep avgSpeed durationMinutes unitSystem schedule climb) :
    e ∈ schedule ∨
      (e.type = .carbs ∧ e.priority = .critical ∧ (5 : ℤ) ≤ e.time ∧
        e.time < (durationMinutes : ℤ)) := by
  simp only [climbStep] at he
  split at he
  · split at he
    next h =>
      rcases List.mem_append.mp he with h' | h'
      · exact Or.inl h'
      · rcases List.mem_cons.mp h' with rfl | h''
        · exact Or.inr ⟨rfl, rfl, le_max_left _ _, h.2⟩
        · simp at h''
    · exact Or.inl he
  · exact Or.inl he

theorem climbFold_mem {avgSpeed : ℚ} {durationMinutes : ℕ}
    {unitSystem : UnitSystem} {e : FuelAlert} :
    ∀ {climbs : List Climb} {schedule : List FuelAlert},
      e ∈ climbs.foldl (climbStep avgSpeed durationMinutes unitSystem) schedule →
      e ∈ schedule ∨
        (e.type = .carbs ∧ e.priority = .critical ∧ (5 : ℤ) ≤ e.time ∧
          e.time < (durationMinutes : ℤ))
  | [], _, he => Or.inl he
  | c :: cs, schedule, he => by
      rcases @climbFold_mem avgSpeed durationMinutes unitSystem e cs
        (climbStep avgSpeed durationMinutes unitSystem schedule c) he with h | h
      · exact climbStep_mem h
      · exact Or.inr h

theorem climbEvents_mem {routeData : Option RouteData}
    {rideIntensity : RideIntensity} {durationMinutes : ℕ}
    {unitSystem : UnitSystem} {schedule : List FuelAlert} {e : FuelAlert}
    (he : e ∈ climbEvents routeData rideIntensity durationMinutes unitSystem
      schedule) :
    e ∈ schedule ∨
      (e.type = .carbs ∧ e.priority = .critical ∧ (5 : ℤ) ≤ e.time ∧
        e.time < (durationMinutes : ℤ)) := by
  unfold climbEvents at he
  split at he
  · exact Or.inl he
  · split at he
    · exact climbFold_mem he
    · exact Or.inl he

theorem mem_generateSchedule {rideIntensity : RideIntensity}
    {routeData : Option RouteData} {currentTemp : ℚ}
    {nutritionProfile : Option NutritionProfile} {unitSystem : UnitSystem}
    {durationMinutes : ℕ} {e : FuelAlert} :
    e ∈ generateSchedule rideIntensity routeData currentTemp nutritionProfile
        unitSystem durationMinutes ↔
      ¬ durationMinutes < 60 ∧
        (e ∈ climbEvents routeData rideIntensity durationMinutes unitSystem
            (carbEvents rideIntensity durationMinutes) ∨
          e ∈ electrolyteEvents durationMinutes currentTemp nutritionProfile) := by
  unfold generateSchedule
  split
  next h => simp [h]
  next h => rw [List.mem_insertionSort, List.mem_append]; simp [h]

/-- Every event of a generated schedule: time in bounds, and critical implies
a carb event. -/
theorem generateSchedule_event_props {rideIntensity : RideIntensity}
    {routeData : Option RouteData} {currentTemp : ℚ}
    {nutritionProfile : Option NutritionProfile} {unitSystem : UnitSystem}
    {durationMinutes : ℕ} {e : FuelAlert}
    (he : e ∈ generateSchedule rideIntensity routeData currentTemp
      nutritionProfile unitSystem durationMinutes) :
    0 ≤ e.time ∧ e.time < (durationMinutes : ℤ) ∧
      (e.priority = .critical → e.type = .carbs) := by
  rcases mem_generateSchedule.mp he with ⟨-, h | h⟩
  · rcases climbEvents_mem h with h' | h'
    · have := carbEvents_mem h'
      exact ⟨this.2.2.1, this.2.2.2, fun _ => this.1⟩
    · exact ⟨by omega, h'.2.2.2, fun _ => h'.1⟩
  · have := electrolyteEvents_mem h
    refine ⟨this.2.2.1, this.2.2.2, fun hc => ?_⟩
    rw [this.2.1] at hc
    cases hc

theorem climbStep_small {avgSpeed : ℚ} {durationMinutes : ℕ}
    {unitSystem : UnitSystem} {schedule : List FuelAlert} {climb : Climb}
    (hc : ¬ (100 : ℚ) < climb.elevationGain) :
    climbStep avgSpeed durationMinutes unitSystem schedule climb = schedule := by
  simp only [climbStep]
  rw [if_neg hc]

theorem climbFold_small {avgSpeed : ℚ} {durationMinutes : ℕ}
    {unitSystem : UnitSystem} :
    ∀ {climbs : List Climb} {schedule : List FuelAlert},
      (∀ c ∈ climbs, ¬ (100 : ℚ) < c.elevationGain) →
      climbs.foldl (climbStep avgSpeed durationMinutes unitSystem) schedule =
        schedule
  | [], _, _ => rfl
  | c :: cs, schedule, h => by
      rw [List.foldl_cons, climbStep_small (h c (.head cs)),
        climbFold_small fun c' hc' => h c' (.tail c hc')]

/-! ## C1 and the spec-side tier table -/

/-- Modelled from the spec: the tiered carbohydrate lookup table keyed by
(intensity, duration bucket), lower bound inclusive and upper bound exclusive,
yielding (carb rate g/h, first event minute, interval minutes), or none for
the no-fueling buckets. -/
def specCarbTier (rideIntensity : RideIntensity) (durationMinutes : ℕ) :
    Option (ℕ × ℕ × ℕ) :=
  match rideIntensity with
  | .casual =>
      if 90 ≤ durationMinutes ∧ durationMinutes < 150 then some (20, 75, 60)
      else if 150 ≤ durationMinutes then some (30, 75, 50)
      else none
  | .moderate =>
      if 75 ≤ durationMinutes ∧ durationMinutes < 90 then some (25, 60, 60)
      else if 90 ≤ durationMinutes ∧ durationMinutes < 150 then some (45, 60, 35)
      else if 150 ≤ durationMinutes then some (60, 60, 25)
      else none
  | .hard =>
      if 60 ≤ durationMinutes ∧ durationMinutes < 90 then some (50, 45, 30)
      else if 90 ≤ durationMinutes then some (70, 45, 20)
      else none

/-- Modelled from the spec: carb events of the tiered lookup, emitted at
firstEvent, firstEvent + interval, ... while strictly below the duration,
each of round (rate * interval / 60) grams. -/
def specCarbEvents (rideIntensity : RideIntensity) (durationMinutes : ℕ) :
    List FuelAlert :=
  match specCarbTier rideIntensity durationMinutes with
  | none => []
  | some (rate, firstEvent, interval) =>
      (intakeTimes firstEvent interval durationMinutes).map fun (t : ℕ) =>
        { time := (t : ℤ)
          type := .carbs
          amount := toString (jsRound ((rate : ℚ) * ((interval : ℚ) / 60))) ++
            "g (gel or sports drink)"
          priority := .normal }

/-- C1: for every ride duration and intensity tier, the base carbohydrate
schedule equals the tiered lookup; rides under 60 minutes produce no carb
events; the moderate [90, 150) bucket is 45 g/h, first event 60, interval 35;
and when a tier applies its events are exactly at firstEvent + k * interval
for every such time strictly below the duration. -/
theorem carb_schedule_matches_tier_table (rideIntensity : RideIntensity)
    (durationMinutes : ℕ) :
    carbEvents rideIntensity durationMinutes =
      specCarbEvents rideIntensity durationMinutes ∧
    (durationMinutes < 60 → carbEvents rideIntensity durationMinutes = []) ∧
    (∀ rate firstEvent interval,
      specCarbTier rideIntensity durationMinutes =
          some (rate, firstEvent, interval) →
      0 < interval →
      ∀ t, t ∈ intakeTimes firstEvent interval durationMinutes ↔
        ∃ k, t = firstEvent + k * interval ∧ t < durationMinutes) ∧
    (90 ≤ durationMinutes → durationMinutes < 150 →
      specCarbTier .moderate durationMinutes = some (45, 60, 35)) := by
  refine ⟨?_, ?_, ?_, ?_⟩
  · cases rideIntensity <;>
      simp only [carbEvents, carbParams, specCarbEvents, specCarbTier] <;>
      split_ifs <;> first | rfl | omega
  · intro h
    cases rideIntensity <;>
      simp only [carbEvents, carbParams] <;>
      split_ifs <;> first | rfl | omega
  · intro rate firstEvent interval _ hiv t
    exact mem_intakeTimes interval firstEvent durationMinutes t hiv
  · intro h1 h2
    simp only [specCarbTier]
    split_ifs <;> first | rfl | omega

/-- Witness for C1 at the spec's own scenario: a 120-minute moderate ride. -/
theorem carb_schedule_matches_tier_table_witness :
    carbEvents .moderate 120 = specCarbEvents .moderate 120 ∧
    specCarbTier .moderate 120 = some (45, 60, 35) ∧
    (95 : ℕ) ∈ intakeTimes 60 35 120 := by
  have h := carb_schedule_matches_tier_table .moderate 120
  exact ⟨h.1, h.2.2.2 (by decide) (by decide),
    (h.2.2.1 45 60 35 (h.2.2.2 (by decide) (by decide)) (by decide) 95).mpr
      ⟨1, by decide, by decide⟩⟩

/-! ## C2 -/

/-- C2: every generated schedule is sorted ascending by time and every event
time lies in the half-open interval from 0 to the ride duration. -/
theorem schedule_sorted_and_within_duration (rideIntensity : RideIntensity)
    (routeData : Option RouteData) (currentTemp : ℚ)
    (nutritionProfile : Option NutritionProfile) (unitSystem : UnitSystem)
    (durationMinutes : ℕ) :
    List.Sorted leTime (generateSchedule rideIntensity routeData currentTemp
        nutritionProfile unitSystem durationMinutes) ∧
    ∀ e ∈ generateSchedule rideIntensity routeData currentTemp
        nutritionProfile unitSystem durationMinutes,
      0 ≤ e.time ∧ e.time < (durationMinutes : ℤ) := by
  constructor
  · unfold generateSchedule
    split
    · exact List.sorted_nil
    · exact List.sorted_insertionSort leTime _
  · intro e he
    exact ⟨(generateSchedule_event_props he).1,
      (generateSchedule_event_props he).2.1⟩

/-! ## C10 -/

/-- C10: in every generated schedule, critical events are carb events (they
come only from climb anticipation), base carb and electrolyte events are
normal, and with no route, a casual ride, or no climb above 100 m gain the
schedule contains no critical event. -/
theorem critical_events_only_from_climbs (rideIntensity : RideIntensity)
    (routeData : Option RouteData) (currentTemp : ℚ)
    (nutritionProfile : Option NutritionProfile) (unitSystem : UnitSystem)
    (durationMinutes : ℕ) :
    (∀ e ∈ generateSchedule rideIntensity routeData currentTemp
        nutritionProfile unitSystem durationMinutes,
      e.priority = .critical → e.type = .carbs) ∧
    (∀ e ∈ carbEvents rideIntensity durationMinutes, e.priority = .normal) ∧
    (∀ e ∈ electrolyteEvents durationMinutes currentTemp nutritionProfile,
      e.priority = .normal) ∧
    ((routeData = none ∨ rideIntensity = .casual ∨
        ∀ rd, routeData = some rd →
          ∀ c ∈ rd.climbs, ¬ (100 : ℚ) < c.elevationGain) →
      ∀ e ∈ generateSchedule rideIntensity routeData currentTemp
          nutritionProfile unitSystem durationMinutes,
        e.priority = .normal) := by
  refine ⟨?_, ?_, ?_, ?_⟩
  · intro e he
    exact (generateSchedule_event_props he).2.2
  · intro e he
    exact (carbEvents_mem he).2.1
  · intro e he
    exact (electrolyteEvents_mem he).2.1
  · intro h e he
    rcases mem_generateSchedule.mp he with ⟨-, hm | hm⟩
    · have hm' : e ∈ carbEvents rideIntensity durationMinutes := by
        rcases routeData with _ | rd
        · simpa only [climbEvents] using hm
        · simp only [climbEvents] at hm
          rcases h with h | rfl | hsmall
          · exact absurd h (Option.some_ne_none rd)
          · rwa [if_neg (by simp)] at hm
          · split at hm
            · rwa [climbFold_small (hsmall rd rfl)] at hm
            · exact hm
      exact (carbEvents_mem hm').2.1
    · exact (electrolyteEvents_mem hm).2.1

/-! ## C6 -/

/-- C6: with a non-casual intensity and a route that has climbs, the schedule
is the base carb schedule with one pre-climb pass folded over the climbs at
average speed distance / (duration/60), plus electrolytes, sorted; and the
pre-climb pass proposes, for each climb of gain above 100 m, a critical carb
event at max 5 (round (startDistance / avgSpeed * 60) - 15), discarded
exactly when an already-scheduled event lies within 10 minutes of it or the
proposed time is not below the duration. -/
theorem climb_anticipation_rule (unitSystem : UnitSystem) (rd : RouteData)
    (rideIntensity : RideIntensity) (currentTemp : ℚ)
    (nutritionProfile : Option NutritionProfile) (durationMinutes : ℕ)
    (hri : rideIntensity ≠ .casual) (hclimbs : rd.climbs ≠ [])
    (hd : ¬ durationMinutes < 60) :
    generateSchedule rideIntensity (some rd) currentTemp nutritionProfile
        unitSystem durationMinutes =
      List.insertionSort leTime
        ((rd.climbs.foldl
            (climbStep (rd.distance / ((durationMinutes : ℚ) / 60))
              durationMinutes unitSystem)
            (carbEvents rideIntensity durationMinutes)) ++
          electrolyteEvents durationMinutes currentTemp nutritionProfile) ∧
    ∀ (avgSpeed : ℚ) (schedule : List FuelAlert) (climb : Climb),
      climbStep avgSpeed durationMinutes unitSystem schedule climb =
        if 100 < climb.elevationGain then
          if (∃ a ∈ schedule,
                |a.time - max 5 (jsRound (climb.startDistance / avgSpeed * 60)
                  - 15)| < 10) ∨
              ¬ max 5 (jsRound (climb.startDistance / avgSpeed * 60) - 15) <
                (durationMinutes : ℤ) then
            schedule
          else
            schedule ++
              [{ time := max 5 (jsRound (climb.startDistance / avgSpeed * 60)
                   - 15)
                 type := .carbs
                 amount := "20-25g before climb (" ++
                   elevationDisplay unitSystem climb.elevationGain ++ ")"
                 priority := .critical }]
        else schedule := by
  constructor
  · simp only [generateSchedule, climbEvents]
    rw [if_neg hd, if_pos ⟨List.length_pos.mpr hclimbs, hri⟩]
  · intro avgSpeed schedule climb
    simp only [climbStep]
    split
    next hgain =>
      have hfind : (schedule.find? fun alert =>
          |alert.time - max 5 (jsRound (climb.startDistance / avgSpeed * 60)
            - 15)| < 10).isNone = true ↔
          ¬ ∃ a ∈ schedule,
            |a.time - max 5 (jsRound (climb.startDistance / avgSpeed * 60)
              - 15)| < 10 := by
        simp [Option.isNone_iff_eq_none, List.find?_eq_none]
      by_cases hex : ∃ a ∈ schedule,
          |a.time - max 5 (jsRound (climb.startDistance / avgSpeed * 60)
            - 15)| < 10
      · rw [if_neg fun hc => (hfind.mp hc.1) hex, if_pos (Or.inl hex)]
      · by_cases hlt : max 5 (jsRound (climb.startDistance / avgSpeed * 60)
            - 15) < (durationMinutes : ℤ)
        · rw [if_pos ⟨hfind.mpr hex, hlt⟩,
            if_neg (not_or.mpr ⟨hex, not_not_intro hlt⟩)]
        · rw [if_neg fun hc => hlt hc.2, if_pos (Or.inr hlt)]
    next => rfl

/-- Sample route used to instantiate C6: 30 km with one 150 m climb. -/
def sampleRoute : RouteData :=
  { name := "r"
    distance := 30
    elevationGain := 200
    estimatedTime := 90
    climbs := [{ startDistance := 10, endDistance := 12,
                 elevationGain := 150, grade := 5 }] }

/-- Witness for C6 at a concrete moderate 120-minute ride on sampleRoute. -/
theorem climb_anticipation_rule_witness :
    generateSchedule .moderate (some sampleRoute) 70 none .US 120 =
      List.insertionSort leTime
        ((sampleRoute.climbs.foldl
            (climbStep (sampleRoute.distance / ((120 : ℚ) / 60)) 120 .US)
            (carbEvents .moderate 120)) ++
          electrolyteEvents 120 70 none) :=
  (climb_anticipation_rule .US sampleRoute .moderate 70 none 120
    (by decide) (List.cons_ne_nil _ _) (by decide)).1

/-! ## C5 -/

/-- C5 counterexample: a track whose final segment is still climbing while the
open climb has accumulated 40 m of gain emits no climb at all — the close
branch is an else-branch of the climbing test, so the track end never closes a
climb whose last segment climbs. -/
theorem climb_open_at_end_dropped_counterexample :
    (runScan (fun _ _ => 1) initScanState
      [⟨0, 0, 0⟩, ⟨0, 1, 20⟩, ⟨0, 2, 40⟩]).climbs = [] ∧
    (runScan (fun _ _ => 1) initScanState
      [⟨0, 0, 0⟩, ⟨0, 1, 20⟩, ⟨0, 2, 40⟩]).currentClimb =
      some { startDistance := 0, startElevation := 0, elevationGain := 40 } ∧
    (30 : ℚ) < 40 := by
  norm_num [runScan, processPoint, initScanState]

/-- C5 as amended: a climb closes when the consecutive delta drops below
-0.5 m (retained exactly when its gain exceeds 30 m, as closeClimb records
it), but at the track end a climb only closes when the final segment is not
itself a climbing segment; a climb still open on a climbing final segment is
discarded, its climbs list left unchanged. -/
theorem climb_close_behavior (dist : TrackPoint → TrackPoint → ℚ)
    (st : ScanState) (p lp : TrackPoint) (lpd : ℚ) (c : OpenClimb)
    (isLast : Bool) (hlast : st.lastPoint = some (lp, lpd))
    (hcur : st.currentClimb = some c) :
    (p.ele - lp.ele < -(1/2) →
      (processPoint dist st p isLast).climbs =
        st.climbs ++ (if c.elevationGain > 30
          then [closeClimb c (st.totalDistance + dist lp p)] else []) ∧
      (processPoint dist st p isLast).currentClimb = none) ∧
    (1/2 < p.ele - lp.ele → 0 < dist lp p →
      (runScan dist st [p]).climbs = st.climbs ∧
      (runScan dist st [p]).currentClimb ≠ none) := by
  constructor
  · intro hdown
    simp only [processPoint, hlast, hcur]
    rw [if_neg (by rintro ⟨h1, -⟩; linarith), if_pos (Or.inl hdown)]
    exact ⟨rfl, rfl⟩
  · intro hup hd
    simp only [runScan, processPoint, hlast, hcur, List.isEmpty_nil]
    rw [if_pos ⟨hup, hd⟩]
    exact ⟨rfl, by simp⟩

/-- Scan state in the middle of a 20 m-high open climb, one segment in. -/
def scanStateMidClimb : ScanState :=
  { totalDistance := 1
    totalElevationGain := 20
    climbs := []
    currentClimb := some { startDistance := 0, startElevation := 0,
                           elevationGain := 20 }
    lastPoint := some (⟨0, 1, 20⟩, 1) }

/-- Witness for C5's amended statement: the final climbing segment leaves the
open climb unemitted. -/
theorem climb_close_behavior_witness :
    (runScan (fun _ _ => 1) scanStateMidClimb [⟨0, 2, 40⟩]).climbs =
      scanStateMidClimb.climbs ∧
    (runScan (fun _ _ => 1) scanStateMidClimb [⟨0, 2, 40⟩]).currentClimb ≠
      none :=
  (climb_close_behavior (fun _ _ => 1) scanStateMidClimb ⟨0, 2, 40⟩ ⟨0, 1, 20⟩
    1 { startDistance := 0, startElevation := 0, elevationGain := 20 } true
    rfl rfl).2 (by norm_num) (by norm_num)

/-! ## C7 -/

/-- Invariant of the climb-detection scan: totals are nonnegative, every
emitted climb is contained in the distance covered so far, climbs are ordered
end-before-start, the open climb starts inside the covered distance after all
emitted climbs, and lastPoint records the running total. -/
def ScanInv (st : ScanState) : Prop :=
  0 ≤ st.totalDistance ∧
  (∀ c ∈ st.climbs,
    0 ≤ c.startDistance ∧ c.startDistance ≤ c.endDistance ∧
      c.endDistance ≤ st.totalDistance) ∧
  st.climbs.Pairwise (fun a b => a.endDistance ≤ b.startDistance) ∧
  (∀ oc, st.currentClimb = some oc →
    0 ≤ oc.startDistance ∧ oc.startDistance ≤ st.totalDistance ∧
      ∀ c ∈ st.climbs, c.endDistance ≤ oc.startDistance) ∧
  (∀ q d, st.lastPoint = some (q, d) → d = st.totalDistance)

theorem scanInv_init : ScanInv initScanState := by
  refine ⟨le_refl 0, ?_, ?_, ?_, ?_⟩ <;> simp [initScanState]

theorem processPoint_inv (dist : TrackPoint → TrackPoint → ℚ)
    (hd : ∀ p q, 0 ≤ dist p q) (st : ScanState) (p : TrackPoint)
    (isLast : Bool) (h : ScanInv st) :
    ScanInv (processPoint dist st p isLast) := by
  obtain ⟨td, teg, climbs, cur, lastp⟩ := st
  obtain ⟨h0, hcl, hpw, hoc, hlp⟩ := h
  dsimp only at h0 hcl hpw hoc hlp
  cases lastp with
  | none =>
      refine ⟨h0, hcl, hpw, hoc, ?_⟩
      intro q d hqd
      simp only [processPoint, Option.some.injEq, Prod.mk.injEq] at hqd
      exact hqd.2.symm
  | some lp =>
      obtain ⟨lq, lpd⟩ := lp
      have hlpd : lpd = td := hlp lq lpd rfl
      have hdn : 0 ≤ dist lq p := hd _ _
      have hnt : td ≤ td + dist lq p := by linarith
      simp only [processPoint]
      split
      · -- climbing segment: the open climb is created or extended
        refine ⟨by simpa using by linarith, ?_, hpw, ?_, ?_⟩
        · intro c hc
          have := hcl c hc
          exact ⟨this.1, this.2.1, by simpa using by linarith [this.2.2]⟩
        · intro oc hoc'
          cases cur with
          | none =>
              dsimp only at hoc'
              simp only [Option.some.injEq] at hoc'
              subst hoc'
              refine ⟨by rw [hlpd]; exact h0, by rw [hlpd]; simpa using hnt, ?_⟩
              intro c hc
              rw [hlpd]
              exact (hcl c hc).2.2
          | some c =>
              dsimp only at hoc'
              simp only [Option.some.injEq] at hoc'
              subst hoc'
              have := hoc c rfl
              exact ⟨this.1, by simpa using by linarith [this.2.1], this.2.2⟩
        · intro q d hqd
          simp only [Option.some.injEq, Prod.mk.injEq] at hqd
          exact hqd.2.symm
      · -- not a climbing segment: close, keep or stay without an open climb
        cases cur with
        | some c =>
            dsimp only
            split
            · -- the climb closes
              have hocc := hoc c rfl
              refine ⟨by simpa using by linarith, ?_, ?_, by simp, ?_⟩
              · intro c' hc'
                simp only at hc'
                rcases List.mem_append.mp hc' with hmem | hmem
                · have := hcl c' hmem
                  exact ⟨this.1, this.2.1, by simpa using by linarith [this.2.2]⟩
                · split at hmem
                  · rcases List.mem_singleton.mp hmem with rfl
                    refine ⟨hocc.1, ?_, ?_⟩
                    · show c.startDistance ≤ td + dist lq p
                      linarith [hocc.2.1]
                    · show td + dist lq p ≤ _
                      simp
                  · simp at hmem
              · show List.Pairwise _ (climbs ++ _)
                rw [List.pairwise_append]
                refine ⟨hpw, ?_, ?_⟩
                · split
                  · exact List.pairwise_singleton _ _
                  · exact List.Pairwise.nil
                · intro a ha b hb
                  split at hb
                  · rcases List.mem_singleton.mp hb with rfl
                    show a.endDistance ≤ c.startDistance
                    exact hocc.2.2 a ha
                  · simp at hb
              · intro q d hqd
                simp only [Option.some.injEq, Prod.mk.injEq] at hqd
                exact hqd.2.symm
            · -- the climb stays open
              refine ⟨by simpa using by linarith, ?_, hpw, ?_, ?_⟩
              · intro c' hc'
                have := hcl c' hc'
                exact ⟨this.1, this.2.1, by simpa using by linarith [this.2.2]⟩
              · intro oc hoc'
                dsimp only at hoc'
                simp only [Option.some.injEq] at hoc'
                subst hoc'
                have := hoc c rfl
                exact ⟨this.1, by simpa using by linarith [this.2.1], this.2.2⟩
              · intro q d hqd
                simp only [Option.some.injEq, Prod.mk.injEq] at hqd
                exact hqd.2.symm
        | none =>
            dsimp only
            refine ⟨by simpa using by linarith, ?_, hpw, by simp, ?_⟩
            · intro c' hc'
              have := hcl c' hc'
              exact ⟨this.1, this.2.1, by simpa using by linarith [this.2.2]⟩
            · intro q d hqd
              simp only [Option.some.injEq, Prod.mk.injEq] at hqd
              exact hqd.2.symm

theorem runScan_inv (dist : TrackPoint → TrackPoint → ℚ)
    (hd : ∀ p q, 0 ≤ dist p q) :
    ∀ (pts : List TrackPoint) (st : ScanState), ScanInv st →
      ScanInv (runScan dist st pts)
  | [], _, h => h
  | p :: rest, st, h =>
      runScan_inv dist hd rest _ (processPoint_inv dist hd st p rest.isEmpty h)

/-- C7: for every track, every detected climb satisfies
0 ≤ start ≤ end ≤ total distance, and the climb list is ordered with each
climb ending no later than the next begins (hence starts are non-decreasing
and no two climbs overlap). -/
theorem climb_containment_and_order (dist : TrackPoint → TrackPoint → ℚ)
    (pts : List TrackPoint) (hdist : ∀ p q, 0 ≤ dist p q) :
    (∀ c ∈ (runScan dist initScanState pts).climbs,
      0 ≤ c.startDistance ∧ c.startDistance ≤ c.endDistance ∧
        c.endDistance ≤ (runScan dist initScanState pts).totalDistance) ∧
    (runScan dist initScanState pts).climbs.Pairwise
      (fun a b => a.endDistance ≤ b.startDistance) ∧
    (runScan dist initScanState pts).climbs.Pairwise
      (fun a b => a.startDistance ≤ b.startDistance) := by
  have h := runScan_inv dist hdist pts initScanState scanInv_init
  obtain ⟨-, hcl, hpw, -, -⟩ := h
  refine ⟨hcl, hpw, ?_⟩
  refine List.Pairwise.imp_of_mem ?_ hpw
  intro a b ha _ hab
  exact le_trans (hcl a ha).2.1 hab

/-- Witness for C7 on the spec's climb-then-descend scenario track. -/
theorem climb_containment_and_order_witness :
    (∀ c ∈ (runScan (fun _ _ => 1) initScanState
        [⟨0, 0, 0⟩, ⟨0, 1, 50⟩, ⟨0, 2, 40⟩]).climbs,
      0 ≤ c.startDistance ∧ c.startDistance ≤ c.endDistance ∧
        c.endDistance ≤ (runScan (fun _ _ => 1) initScanState
          [⟨0, 0, 0⟩, ⟨0, 1, 50⟩, ⟨0, 2, 40⟩]).totalDistance) ∧
    (runScan (fun _ _ => 1) initScanState
        [⟨0, 0, 0⟩, ⟨0, 1, 50⟩, ⟨0, 2, 40⟩]).climbs.Pairwise
      (fun a b => a.endDistance ≤ b.startDistance) ∧
    (runScan (fun _ _ => 1) initScanState
        [⟨0, 0, 0⟩, ⟨0, 1, 50⟩, ⟨0, 2, 40⟩]).climbs.Pairwise
      (fun a b => a.startDistance ≤ b.startDistance) :=
  climb_containment_and_order (fun _ _ => 1)
    [⟨0, 0, 0⟩, ⟨0, 1, 50⟩, ⟨0, 2, 40⟩] (fun _ _ => by norm_num)

/-! ## C3 -/

/-- Upstream failures that reach the catch block: a geocoding network error,
a geocoding non-2xx response other than status 404, a malformed geocoding
payload, or a conditions-fetch network error, non-2xx response or malformed
payload. A geocoding 404 instead returns a Location-not-found error. -/
def upstreamFailureNoGeo404 (geoFetch : FetchOutcome GeoData)
    (weatherFetch : FetchOutcome CurrentConditions) : Prop :=
  match geoFetch with
  | .networkError => True
  | .httpResponse gok gstatus gbody =>
      if gok then
        match gbody with
        | .error _ => True
        | .ok _ =>
            match weatherFetch with
            | .networkError => True
            | .httpResponse wok _ wbody =>
                wok = false ∨ ∃ u, wbody = .error u
      else gstatus ≠ 404

/-- C3 counterexample: a geocoding 404 is an upstream non-2xx response, yet
with a populated (expired) cache the handler propagates a Location-not-found
error instead of returning the stale cache entry. -/
theorem geo404_breaks_fallback_counterexample :
    weatherGET true (some "12345") (some "k")
        (some { data := DEFAULT_WEATHER, timestamp := 0 }) 1800000
        (.httpResponse false 404 (.error ())) "" .networkError =
      (.errorLocationNotFound,
        some { data := DEFAULT_WEATHER, timestamp := 0 }) ∧
    WeatherResponse.errorLocationNotFound ≠
      degradedResponse 1800000 (some { data := DEFAULT_WEATHER, timestamp := 0 }) := by
  constructor
  · rfl
  · intro h
    simp [degradedResponse] at h

/-- C3 as amended: on any upstream failure other than a geocoding 404 (which
is surfaced as a Location-not-found error), the handler returns the most
recent cache entry for the requested code regardless of age, marked stale
with an explanatory warning; only with no cache entry does it return the
built-in default marked as fallback. -/
theorem degraded_fallback_chain (z apiKeyVal : String)
    (cache : Option CacheEntry) (now : ℕ) (geoFetch : FetchOutcome GeoData)
    (stateName : String) (weatherFetch : FetchOutcome CurrentConditions)
    (hzip : validateZipCode z = true)
    (hmiss : ∀ e, cache = some e → ¬ now - e.timestamp < CACHE_DURATION)
    (hfail : upstreamFailureNoGeo404 geoFetch weatherFetch) :
    weatherGET true (some z) (some apiKeyVal) cache now geoFetch stateName
        weatherFetch = (degradedResponse now cache, cache) ∧
    (cache = none → degradedResponse now cache =
      .fallbackDefault DEFAULT_WEATHER
        "Weather service unavailable - using default conditions") ∧
    (∀ e, cache = some e → degradedResponse now cache =
      .staleResult e.data (cacheAgeMinutes now e.timestamp)
        "Using cached weather data - service temporarily unavailable") := by
  have hfetch : weatherGETFetch (some apiKeyVal) cache now geoFetch stateName
      weatherFetch = (degradedResponse now cache, cache) := by
    rcases geoFetch with _ | ⟨gok, gstatus, gbody⟩
    · rfl
    · simp only [upstreamFailureNoGeo404] at hfail
      cases gok with
      | false =>
          rw [if_neg (by simp)] at hfail
          simp only [weatherGETFetch]
          rw [if_pos (by simp), if_neg hfail]
      | true =>
          rw [if_pos rfl] at hfail
          simp only [weatherGETFetch]
          rw [if_neg (by simp)]
          rcases gbody with u | geo
          · rfl
          · dsimp only at hfail
            rcases weatherFetch with _ | ⟨wok, wstatus, wbody⟩
            · rfl
            · dsimp only at hfail
              rcases hfail with rfl | ⟨u, rfl⟩
              · simp
              · cases wok with
                | false => simp
                | true => simp
  refine ⟨?_, ?_, ?_⟩
  · rcases cache with _ | e
    · simp only [weatherGET]
      rw [if_neg (by simp), if_neg (by simp [hzip])]
      exact hfetch
    · simp only [weatherGET]
      rw [if_neg (by simp), if_neg (by simp [hzip]), if_neg (hmiss e rfl)]
      exact hfetch
  · rintro rfl
    rfl
  · rintro e rfl
    rfl

/-- Witness for C3's amended statement: geocoding network outage with an
empty cache yields the built-in default. -/
theorem degraded_fallback_chain_witness :
    weatherGET true (some "12345") (some "k") none 5 .networkError ""
        .networkError = (degradedResponse 5 none, none) ∧
    (none = (none : Option CacheEntry) → degradedResponse 5 none =
      .fallbackDefault DEFAULT_WEATHER
        "Weather service unavailable - using default conditions") ∧
    (∀ e, (none : Option CacheEntry) = some e → degradedResponse 5 none =
      .staleResult e.data (cacheAgeMinutes 5 e.timestamp)
        "Using cached weather data - service temporarily unavailable") :=
  degraded_fallback_chain "12345" "k" none 5 .networkError "" .networkError
    (by decide) (fun e h => nomatch h) trivial

/-! ## C4 -/

/-- C4 counterexample: a rate-limited request with a populated cache still
receives the built-in default snapshot, not the cached one. -/
theorem rate_limit_ignores_cache_counterexample :
    weatherGET false (some "12345") (some "k")
        (some { data := { DEFAULT_WEATHER with temperature := 60 },
                timestamp := 3 }) 99 .networkError "" .networkError =
      (.rateLimited 60 DEFAULT_WEATHER,
        some { data := { DEFAULT_WEATHER with temperature := 60 },
               timestamp := 3 }) ∧
    ({ DEFAULT_WEATHER with temperature := 60 } : WeatherData) ≠
      DEFAULT_WEATHER := by
  constructor
  · rfl
  · decide

/-- C4 as amended: a rate-limited request is short-circuited before any
upstream contact and receives a 429 response carrying the built-in default
snapshot and a retry-after of 60 minutes, regardless of any cache entry; the
cache is neither consulted for the response nor modified. -/
theorem rate_limited_short_circuit (zip : Option String)
    (apiKey : Option String) (cache : Option CacheEntry) (now : ℕ)
    (geoFetch : FetchOutcome GeoData) (stateName : String)
    (weatherFetch : FetchOutcome CurrentConditions) :
    weatherGET false zip apiKey cache now geoFetch stateName weatherFetch =
      (.rateLimited (RATE_LIMIT_WINDOW / 1000 / 60) DEFAULT_WEATHER, cache) ∧
    RATE_LIMIT_WINDOW / 1000 / 60 = 60 :=
  ⟨rfl, rfl⟩

/-! ## C9 -/

set_option maxRecDepth 4000 in
/-- C9 counterexample: 200 requests inside 3600002 ms are all accepted — the
first at time 0, 99 more at 3599999, then 100 at 3600001 after the fixed
window expired; the 199 requests at times 3599999 and 3600001 fall inside one
single hour-long window and every one of them passes, so more than 100
requests are accepted within a rolling hour. -/
theorem rolling_hour_cap_counterexample :
    rateLimitTrace none
        ([0] ++ List.replicate 99 3599999 ++ List.replicate 100 3600001) =
      List.replicate 200 true ∧
    (3600001 : ℕ) < 3599999 + RATE_LIMIT_WINDOW ∧
    RATE_LIMIT < 99 + 100 := by
  refine ⟨?_, by decide, by decide⟩
  decide

theorem rateLimitTrace_fixed_window :
    ∀ (times : List ℕ) (c reset : ℕ), (∀ t ∈ times, t ≤ reset) →
      rateLimitTrace (some { count := c, resetTime := reset }) times =
        (List.range times.length).map fun i => decide (c + i < RATE_LIMIT)
  | [], _, _, _ => rfl
  | t :: ts, c, reset, h => by
      have ht : t ≤ reset := h t (.head ts)
      simp only [rateLimitTrace, checkRateLimit]
      rw [if_neg (by omega)]
      by_cases hc : c ≥ RATE_LIMIT
      · rw [if_pos hc]
        simp only [List.length_cons, List.range_succ_eq_map, List.map_cons,
          List.map_map,
          rateLimitTrace_fixed_window ts c reset fun u hu => h u (.tail t hu)]
        congr 1
        · have hx : ¬ c + 0 < RATE_LIMIT := by
            simp only [RATE_LIMIT] at hc ⊢
            omega
          simp [hx]
          exact hc
        · apply List.map_congr_left
          intro i _
          simp only [Function.comp_apply, decide_eq_decide, RATE_LIMIT] at hc ⊢
          omega
      · rw [if_neg hc]
        simp only [List.length_cons, List.range_succ_eq_map, List.map_cons,
          List.map_map,
          rateLimitTrace_fixed_window ts (c + 1) reset fun u hu =>
            h u (.tail t hu)]
        congr 1
        · have hx : c + 0 < RATE_LIMIT := by
            simp only [RATE_LIMIT] at hc ⊢
            omega
          simp [hx]
          omega
        · apply List.map_congr_left
          intro i _
          simp only [Function.comp_apply, decide_eq_decide]
          omega

/-- C9 as amended: checkRateLimit is a per-caller fixed one-hour window, not
a rolling one — a first request (or one after the recorded window expired)
starts a window of 3600000 ms with count 1 and passes; within a window a
request passes exactly while the count is below 100, so the i-th request of a
window passes iff fewer than 100 came before it; across two adjacent fixed
windows more than 100 requests can be accepted inside one rolling hour. -/
theorem fixed_window_rate_limiter :
    (∀ now, checkRateLimit now none =
      (true, { count := 1, resetTime := now + RATE_LIMIT_WINDOW })) ∧
    (∀ now r, r.resetTime < now → checkRateLimit now (some r) =
      (true, { count := 1, resetTime := now + RATE_LIMIT_WINDOW })) ∧
    (∀ now r, ¬ r.resetTime < now → RATE_LIMIT ≤ r.count →
      checkRateLimit now (some r) = (false, r)) ∧
    (∀ now r, ¬ r.resetTime < now → r.count < RATE_LIMIT →
      checkRateLimit now (some r) =
        (true, { count := r.count + 1, resetTime := r.resetTime })) ∧
    (∀ (times : List ℕ) (c reset : ℕ), (∀ t ∈ times, t ≤ reset) →
      rateLimitTrace (some { count := c, resetTime := reset }) times =
        (List.range times.length).map fun i => decide (c + i < RATE_LIMIT)) := by
  refine ⟨fun now => rfl, ?_, ?_, ?_, rateLimitTrace_fixed_window⟩
  · intro now r h
    simp only [checkRateLimit]
    rw [if_pos h]
  · intro now r h hc
    simp only [checkRateLimit]
    rw [if_neg h, if_pos hc]
  · intro now r h hc
    simp only [checkRateLimit]
    rw [if_neg h, if_neg (by omega)]

/-! ## C8 -/

/-- C8 counterexample: with no rider profile the ride intensity defaults to
casual, not moderate, and a 120-minute profile-less ride at 70 °F produces
one carb event and no electrolyte event at all — not the claimed 300 mg
sodium events starting at minute 60. -/
theorem no_profile_no_electrolytes_counterexample :
    rideIntensityDefault = .casual ∧
    generateSchedule rideIntensityDefault none 70 none .US 120 =
      [(⟨75, .carbs, "20g (gel or sports drink)", .normal⟩ : FuelAlert)] ∧
    (⟨60, .electrolytes, "300mg sodium (tab or sports drink)",
        .normal⟩ : FuelAlert) ∉
      generateSchedule rideIntensityDefault none 70 none .US 120 := by
  have h20 : jsRound (20 : ℚ) = 20 := by norm_num [jsRound]
  have hcarb : carbEvents .casual 120 =
      [(⟨75, .carbs, "20g (gel or sports drink)", .normal⟩ : FuelAlert)] := by
    simp only [carbEvents, carbParams]
    norm_num [intakeTimes, intakeTimesAux]
    rw [h20]
    decide
  have helec : electrolyteEvents 120 70 none = [] := by
    simp only [electrolyteEvents, electrolyteParams]
    norm_num
    simp
  have hgen : generateSchedule rideIntensityDefault none 70 none .US 120 =
      [(⟨75, .carbs, "20g (gel or sports drink)", .normal⟩ : FuelAlert)] := by
    simp only [rideIntensityDefault, generateSchedule, climbEvents, hcarb,
      helec]
    norm_num [List.insertionSort]
  refine ⟨rfl, hgen, ?_⟩
  rw [hgen]
  decide

/-- C8 as amended: an absent rider profile leaves the ride-level intensity at
its casual default and satisfies no sweat-rate test (optional chaining on an
absent profile is never equal to a sweat rate), so a profile-less ride of at
least 90 minutes at 75 °F or below produces no electrolyte events — every
event of such a schedule is a carb event; the 300 mg/h, 75-minute electrolyte
tier requires a temperature above 75 °F (and at most 80 °F) or an explicit
moderate-sweat profile. -/
theorem no_profile_defaults (durationMinutes : ℕ) (currentTemp : ℚ)
    (hd : 90 ≤ durationMinutes) :
    (currentTemp ≤ 75 →
      electrolyteEvents durationMinutes currentTemp none = [] ∧
      ∀ (rideIntensity : RideIntensity) (routeData : Option RouteData)
        (unitSystem : UnitSystem),
        ∀ e ∈ generateSchedule rideIntensity routeData currentTemp none
            unitSystem durationMinutes,
          e.type = .carbs) ∧
    (75 < currentTemp → ¬ 80 < currentTemp →
      electrolyteParams durationMinutes currentTemp none = some (300, 75)) ∧
    rideIntensityDefault = .casual := by
  have hparams : currentTemp ≤ 75 →
      electrolyteParams durationMinutes currentTemp none = none := by
    intro ht
    simp only [electrolyteParams]
    rw [if_pos hd, if_neg (by simp; linarith),
      if_neg (by simp; linarith)]
  refine ⟨fun ht => ⟨?_, ?_⟩, fun h1 h2 => ?_, rfl⟩
  · simp only [electrolyteEvents, hparams ht]
  · intro rideIntensity routeData unitSystem e he
    rcases mem_generateSchedule.mp he with ⟨-, hm | hm⟩
    · rcases climbEvents_mem hm with hm' | hm'
      · exact (carbEvents_mem hm').1
      · exact hm'.1
    · rw [electrolyteEvents, hparams ht] at hm
      simp at hm
  · simp only [electrolyteParams]
    rw [if_pos hd, if_neg (by simp; linarith),
      if_pos (Or.inl h1)]

/-- Witness for C8's amended statement at 120 minutes, 70 °F and 78 °F. -/
theorem no_profile_defaults_witness :
    electrolyteEvents 120 70 none = [] ∧
    electrolyteParams 120 78 none = some (300, 75) ∧
    rideIntensityDefault = .casual := by
  have h1 := no_profile_defaults 120 70 (by decide)
  have h2 := no_profile_defaults 120 78 (by decide)
  exact ⟨(h1.1 (by norm_num)).1, h2.2.1 (by norm_num) (by norm_num), h1.2.2⟩

end CyclingNutrition
